import Mathlib

set_option maxRecDepth 2000

/-!
# RiceUp backend — shallow embedding

Shallow embedding, over exact rational arithmetic, of the prediction and
data-aggregation core of the RiceUp backend (an Express server that loads
rice-price records from a CSV and serves current/historical views plus a
linear-regression price forecast).

The repository ships several near-duplicate variants of the server file; the
claims cite specific variants, so each cited variant is embedded in its own
namespace:

* `P1`  — the variant in `src/unnamed/part_001`
  (`loadRiceData` row handler, `getCurrentPrices`, `getHistoricalData`,
  `predictPrice` with an index-based time axis, `POST /api/predict` route);
* `P2`  — the variant in `src/unnamed/part_002` (`getCurrentPrices`);
* `P4`  — the first document in `src/unnamed/part_004`
  (the "FIXED FOR YYYY/MM/DD FORMAT" loader row handler with alias-based
  column detection and the fabricated-date fallback, `getCurrentPrices`,
  `getHistoricalData`, `POST /api/predict` route with inline regression);
* `P4b` — the second document in `src/unnamed/part_004`
  (`predictPrice` with a days-since-first-date time axis, trend label and
  clamped confidence, `POST /predict` route).

Modelling conventions:

* JavaScript numbers are modelled as `ℚ`; `NaN` is modelled by `none` in
  `JNum := Option ℚ` at the places where the source can produce `NaN`
  (the coefficient of determination of a degenerate series, and anything
  computed from it).  `Math.min`/`Math.max` propagate `NaN`, hence
  `jsMinN`/`jsMaxN` propagate `none`.
* `x.toFixed(k)` followed by `parseFloat` is modelled by rounding to `k`
  decimal places (`round2`/`round4`/`round6`); on `NaN` it stays `NaN`.
* The external `regression` npm package (not part of this repository) is
  modelled by `regressionLinear`, the closed-form ordinary-least-squares fit
  the spec prescribes for it (§4.4, §9): `slope = rise/run` with the
  library's `run == 0 → slope = 0` guard, exact intercept, and
  `r2 = 1 - SSres/SStot`, which is `NaN` (here `none`) when `SStot = 0`.
  The library's display-precision rounding of its coefficients is not
  modelled; the repository's own `toFixed` calls are.
* Calendar dates in the query/forecast layer are modelled as integers
  (days since an epoch, the image of `getTime()` up to the constant factor
  `86 400 000`); `date2 - date1` is then exactly the day difference used by
  `P4b.predictPrice`, and `setDate(getDate() + 7*w)` is `+ 7*w`.
* The loaders parse textual dates; there a date is a `Ymd` triple
  `(year, 0-indexed month, day)` mirroring the `Date(year, month, day)`
  constructor, with `none : Option Ymd` standing for an `Invalid Date`.
  Calendar rollover of out-of-range components and timezone offsets are not
  modelled; all concrete inputs used below stay in range.
* Express responses are modelled by `Resp`: `ok` (a 200 JSON payload),
  `clientErr` (a 4xx response) and `serverErr` (a 5xx response); the
  human-readable message strings are abstracted away.
* `Array.prototype.sort` with the comparators `(a,b) => a.date - b.date`
  and `(a,b) => b.date - a.date` is modelled by the stable
  `List.insertionSort` on the corresponding total preorders.
-/

namespace RiceUp

/-! ## JavaScript-flavoured numeric and string helpers -/

/-- A JavaScript number that may be `NaN` (`none`). -/
abbrev JNum := Option ℚ

/-- `Math.min c x` for a possibly-`NaN` `x`: `NaN` propagates. -/
def jsMinN (c : ℚ) : JNum → JNum
  | none => none
  | some q => some (min c q)

/-- `Math.max c x` for a possibly-`NaN` `x`: `NaN` propagates. -/
def jsMaxN (c : ℚ) : JNum → JNum
  | none => none
  | some q => some (max c q)

/-- `parseFloat(x.toFixed(2))` on a finite value. -/
def round2 (q : ℚ) : ℚ := ((round (q * 100) : ℤ) : ℚ) / 100

/-- `parseFloat(x.toFixed(4))` on a finite value. -/
def round4 (q : ℚ) : ℚ := ((round (q * 10000) : ℤ) : ℚ) / 10000

/-- `parseFloat(x.toFixed(6))` on a finite value. -/
def round6 (q : ℚ) : ℚ := ((round (q * 1000000) : ℤ) : ℚ) / 1000000

/-- `parseFloat(x.toFixed(4))` where `x` may be `NaN` (`NaN` stays `NaN`). -/
def jsRound4 : JNum → JNum := Option.map round4

/-- JavaScript truthiness of a possibly-`undefined` string
(`undefined` and `""` are falsy). -/
def truthyS : Option String → Bool
  | none => false
  | some s => s ≠ ""

/-- Value of a digit list read in base 10. -/
def digitsToNat (cs : List Char) : ℕ :=
  cs.foldl (fun n c => 10 * n + (c.toNat - 48)) 0

/-- Value of the fractional digits `d₁…dₖ` as `0.d₁…dₖ`. -/
def fracToRat (cs : List Char) : ℚ :=
  (digitsToNat cs : ℚ) / ((10 : ℚ) ^ cs.length)

/-- JavaScript `parseFloat`: skip leading whitespace, optional sign, a run of
digits, optionally a point and more digits; `NaN` (`none`) when no digit was
consumed.  Trailing garbage is ignored, as in JavaScript. -/
def jsParseFloat (s : String) : Option ℚ :=
  let cs := s.toList.dropWhile (fun c => c.isWhitespace)
  let sgn : ℚ := match cs with
    | c :: _ => if c = '-' then -1 else 1
    | [] => 1
  let cs2 : List Char := match cs with
    | c :: rest => if c = '-' || c = '+' then rest else cs
    | [] => []
  let ip := cs2.takeWhile (fun c => c.isDigit)
  let rest := cs2.dropWhile (fun c => c.isDigit)
  let fp : List Char := match rest with
    | c :: r => if c = '.' then r.takeWhile (fun c => c.isDigit) else []
    | [] => []
  if ip.isEmpty ∧ fp.isEmpty then none
  else some (sgn * ((digitsToNat ip : ℚ) + fracToRat fp))

/-- JavaScript `parseInt` in base 10: skip leading whitespace, optional sign,
a run of digits; `NaN` (`none`) when no digit was consumed. -/
def parseIntJS (s : String) : Option ℤ :=
  let cs := s.toList.dropWhile (fun c => c.isWhitespace)
  let sgn : ℤ := match cs with
    | c :: _ => if c = '-' then -1 else 1
    | [] => 1
  let cs2 : List Char := match cs with
    | c :: rest => if c = '-' || c = '+' then rest else cs
    | [] => []
  let ip := cs2.takeWhile (fun c => c.isDigit)
  if ip.isEmpty then none else some (sgn * (digitsToNat ip : ℤ))

/-- Split a character list at every occurrence of `sep` (the splitter
behind the JavaScript single-character `split` calls; structural, so that
concrete inputs evaluate). -/
def splitOnChar (sep : Char) : List Char → List (List Char)
  | [] => [[]]
  | c :: rest =>
    if c = sep then [] :: splitOnChar sep rest
    else
      match splitOnChar sep rest with
      | h :: t => (c :: h) :: t
      | [] => [[c]]

/-- `s.split(sep)` for a one-character separator. -/
def splitOnStr (sep : Char) (s : String) : List String :=
  (splitOnChar sep s.toList).map String.mk

/-- `s.trim()`: strip leading and trailing whitespace. -/
def trimStr (s : String) : String :=
  String.mk (((s.toList.dropWhile (fun c => c.isWhitespace)).reverse.dropWhile
    (fun c => c.isWhitespace)).reverse)

/-- `s.toLowerCase()`. -/
def toLowerStr (s : String) : String :=
  String.mk (s.toList.map Char.toLower)

/-- `s.replace(/[^\d.-]/g, '')`: keep only digits, `.` and `-`. -/
def stripNonNum (s : String) : String :=
  String.mk (s.toList.filter (fun c => c.isDigit || c = '.' || c = '-'))

/-- Drop the first occurrence of a comma from a character list. -/
def dropFirstComma : List Char → List Char
  | [] => []
  | c :: cs => if c = ',' then cs else c :: dropFirstComma cs

/-- `s.replace(',', '')` with a string pattern: removes the first comma only. -/
def removeFirstComma (s : String) : String :=
  String.mk (dropFirstComma s.toList)

/-! ## Data model -/

/-- A canonical price record as held in the in-memory store used by the query
and forecast functions (`date` is a day number, the image of `getTime()`). -/
structure Rec where
  date : ℤ
  type : String
  category : String
  price : ℚ
  unit : String
deriving DecidableEq

/-- A calendar date as produced by `new Date(year, month, day)`:
year, 0-indexed month, day of month. -/
structure Ymd where
  y : ℤ
  m : ℤ
  d : ℤ
deriving DecidableEq

/-- One raw CSV row: an ordered association list from column name to cell
text, mirroring the object `csv-parser` hands to the `data` callback. -/
abbrev RawRow := List (String × String)

/-- `data[k]`: the cell under column `k`, `undefined` (`none`) if absent. -/
def lookupRow (row : RawRow) (k : String) : Option String :=
  (row.find? (fun p => p.1 = k)).map (·.2)

/-- One step of a JavaScript `||` chain: a present-but-falsy (empty) string
falls through like `undefined`. -/
def truthyOpt : Option String → Option String
  | some s => if s = "" then none else some s
  | none => none

/-! ## The regression dependency, modelled exactly

`regression.linear` of the npm `regression` package, as the spec re-expresses
it (§4.4 step 3–4, §9): closed-form single-variable ordinary least squares
over the pairs, with the library's `run == 0` guard on the slope, and
`r² = 1 - SSres/SStot`, undefined (`none`, the library's `NaN`) when
`SStot = 0` (a constant series). -/

structure LinFit where
  slope : ℚ
  intercept : ℚ
  r2 : JNum
deriving DecidableEq

def regressionLinear (pts : List (ℚ × ℚ)) : LinFit :=
  let n : ℚ := pts.length
  let sx := (pts.map (fun p => p.1)).sum
  let sy := (pts.map (fun p => p.2)).sum
  let sxx := (pts.map (fun p => p.1 * p.1)).sum
  let sxy := (pts.map (fun p => p.1 * p.2)).sum
  let run := n * sxx - sx * sx
  let rise := n * sxy - sx * sy
  let slope := if run = 0 then 0 else rise / run
  let intercept := sy / n - slope * sx / n
  let mean := sy / n
  let sse := (pts.map (fun p => (p.2 - (slope * p.1 + intercept)) ^ 2)).sum
  let ssyy := (pts.map (fun p => (p.2 - mean) ^ 2)).sum
  let r2 : JNum := if ssyy = 0 then none else some (1 - sse / ssyy)
  ⟨slope, intercept, r2⟩

/-! ## Shared series selection and ordering -/

/-- The series the forecaster of `P1`/the predict route of `P4` work on:
records matching `(type, category)` with a positive price. -/
def seriesOf (store : List Rec) (t c : String) : List Rec :=
  store.filter (fun r => decide (r.type = t ∧ r.category = c ∧ 0 < r.price))

/-- Records matching `(type, category)` with no price condition
(the filter of `P4b.predictPrice`). -/
def filterTC (store : List Rec) (t c : String) : List Rec :=
  store.filter (fun r => decide (r.type = t ∧ r.category = c))

/-- The order given by the comparator `(a, b) => a.date - b.date`. -/
abbrev dateAsc (a b : Rec) : Prop := a.date ≤ b.date

/-- The order given by the comparator `(a, b) => b.date - a.date`. -/
abbrev dateDesc (a b : Rec) : Prop := b.date ≤ a.date

instance : IsTotal Rec dateAsc := ⟨fun a b => le_total a.date b.date⟩

instance : IsTrans Rec dateAsc := ⟨fun _ _ _ h1 h2 => le_trans h1 h2⟩

instance : IsTotal Rec dateDesc := ⟨fun a b => le_total b.date a.date⟩

instance : IsTrans Rec dateDesc := ⟨fun _ _ _ h1 h2 => le_trans h2 h1⟩

/-- `Math.max(...store.map(item => item.date.getTime()))` over a non-empty
store (`0` on the empty store, which every caller guards against). -/
def maxDateTime : List Rec → ℤ
  | [] => 0
  | r :: rs => rs.foldl (fun m x => max m x.date) r.date

/-- The result shape of `getCurrentPrices`; `as_of_date = none` models the
`new Date()` ("now") placeholder returned when there is nothing to slice. -/
structure CurrentView where
  current_prices : List Rec
  as_of_date : Option ℤ
deriving DecidableEq

/-! ## Route layer common shapes -/

/-- The body of a `POST` predict request, with absent fields as `none`.
`weeks_ahead` is modelled as a JSON integer; `parseInt` is the identity on
it. -/
structure PredictBody where
  type : Option String
  category : Option String
  weeks_ahead : Option ℤ
deriving DecidableEq

/-- An Express response: a 200 JSON payload, a 4xx client error or a 5xx
server error (the message strings are abstracted away). -/
inductive Resp (α : Type) where
  | ok (a : α)
  | clientErr
  | serverErr
deriving DecidableEq

def Resp.isOk {α : Type} : Resp α → Bool
  | .ok _ => true
  | _ => false

/-- The single failure mode of the forecasters. -/
inductive PredErr where
  | insufficientData
deriving DecidableEq

/-- The payload of a successful `/api/predict` response in `P1` and in the
first document of `part_004` (`P4`). -/
structure PredictPayload where
  predicted_price : ℚ
  confidence : JNum
  data_points : ℕ
  type : String
  category : String
  weeks_ahead : ℤ
deriving DecidableEq

/-! ## `P1` — the variant in `src/unnamed/part_001` -/

namespace P1

/-- One record as pushed by `part_001`'s `loadRiceData` row handler: `date`
is `new Date(data.date)` (possibly invalid), `type`/`category` are taken
verbatim (possibly `undefined`), an unparseable price is coerced to `0`
rather than dropping the row. -/
structure RawRec where
  date : Option RiceUp.Ymd
  type : Option String
  category : Option String
  price : ℚ
  unit : String
deriving DecidableEq

/-- `new Date(s)` on a text date, modelled for the ISO `YYYY-MM-DD` form
(`none` is an `Invalid Date`). -/
def newDateFromString (s : String) : Option RiceUp.Ymd :=
  match splitOnStr '-' s with
  | [ys, ms, ds] =>
    if ys ≠ "" ∧ ms ≠ "" ∧ ds ≠ "" ∧ ys.toList.all (fun c => c.isDigit) ∧
        ms.toList.all (fun c => c.isDigit) ∧ ds.toList.all (fun c => c.isDigit) then
      let m : ℤ := (digitsToNat ms.toList : ℤ)
      let d : ℤ := (digitsToNat ds.toList : ℤ)
      if 1 ≤ m ∧ m ≤ 12 ∧ 1 ≤ d ∧ d ≤ 31 then
        some ⟨(digitsToNat ys.toList : ℤ), m - 1, d⟩
      else none
    else none
  | _ => none

/-- Price-column resolution of `part_001` (lines 38–53): `data.price`, then
`data['price ']`, then the first column whose name contains `price`
case-insensitively or trims to `price`, else the literal `'0'`. -/
def priceField (row : RawRow) : String :=
  match lookupRow row "price" with
  | some v => v
  | none =>
    match lookupRow row "price " with
    | some v => v
    | none =>
      match row.find? (fun p =>
          ((toLowerStr p.1).toList.tails.any (fun t => "price".toList.isPrefixOf t)) ||
          trimStr p.1 = "price") with
      | some p => p.2
      | none => "0"

/-- The `data` callback of `part_001`'s `loadRiceData` (lines 29–75): every
row becomes a record; `price` is `parseFloat` of the trimmed cell with its
first comma removed, coerced to `0` when `NaN`. -/
def loadRiceDataRow (row : RawRow) : RawRec :=
  let cleanPrice := jsParseFloat (removeFirstComma (trimStr (priceField row)))
  { date := match lookupRow row "date" with
      | some s => newDateFromString s
      | none => none
    type := lookupRow row "type"
    category := lookupRow row "category"
    price := match cleanPrice with
      | none => 0
      | some p => p
    unit := match truthyOpt (lookupRow row "unit") with
      | some u => u
      | none => "PHP/kg" }

/-- The whole load: every CSV row is pushed (`results.push(record)` is
unconditional in `part_001`). -/
def loadRiceData (rows : List RawRow) : List RawRec :=
  rows.map loadRiceDataRow

/-- `getHistoricalData` filters of `part_001` (`limit` via `slice`). -/
structure HFilters where
  type : Option String
  category : Option String
  limit : Option ℕ
deriving DecidableEq

/-- `if (filters.f && filters.f !== 'all') filter(item => item.f === v)`. -/
def applyOptFilter (sel : Rec → String) : Option String → List Rec → List Rec
  | some v, l => if v ≠ "" ∧ v ≠ "all" then l.filter (fun r => decide (sel r = v)) else l
  | none, l => l

/-- `part_001`'s `getHistoricalData` (lines 189–212): positive prices only,
optional type/category filters, newest-first sort, optional `limit` slice. -/
def getHistoricalData (store : List Rec) (f : HFilters) : List Rec :=
  let d1 := store.filter (fun r => decide (0 < r.price))
  let d2 := applyOptFilter (fun r => r.type) f.type d1
  let d3 := applyOptFilter (fun r => r.category) f.category d2
  let sorted := List.insertionSort dateDesc d3
  match f.limit with
  | some n => sorted.take n
  | none => sorted

/-- The regression fit `part_001`'s `predictPrice` computes: the matching
positive-price series sorted by date, regressed against the zero-based
sequence index. -/
def fitOf (store : List Rec) (t c : String) : LinFit :=
  regressionLinear
    ((List.insertionSort dateAsc (seriesOf store t c)).enum.map
      (fun p => ((p.1 : ℚ), p.2.price)))

/-- `result.predict(filteredData.length + weeksAhead - 1)[1]`, the raw
regression value at the future index. -/
def rawPrediction (store : List Rec) (t c : String) (weeksAhead : ℤ) : ℚ :=
  (fitOf store t c).slope * ((((seriesOf store t c).length : ℤ) + weeksAhead - 1 : ℤ) : ℚ)
    + (fitOf store t c).intercept

/-- The result object of `part_001`'s `predictPrice` (lines 239–244). -/
structure Forecast where
  predicted_price : ℚ
  confidence : JNum
  data_points : ℕ
  equation : ℚ × ℚ
deriving DecidableEq

/-- `part_001`'s `predictPrice` (lines 215–249): throws (here `.error`) on a
series of fewer than 2 valid observations, otherwise returns
`Math.max(0, predictedPrice)` with the unclamped `r2` as confidence. -/
def predictPrice (store : List Rec) (riceType category : String)
    (weeksAhead : ℤ) : Except PredErr Forecast :=
  let fd := seriesOf store riceType category
  if fd.length < 2 then .error .insufficientData
  else
    .ok { predicted_price := max 0 (rawPrediction store riceType category weeksAhead)
          confidence := (fitOf store riceType category).r2
          data_points := fd.length
          equation := ((fitOf store riceType category).slope,
                       (fitOf store riceType category).intercept) }

/-- `part_001`'s `POST /api/predict` (lines 352–385): 400 on missing
type/category, `weeks_ahead` defaulting to `1`, the `predictPrice` throw
surfacing as a 500. -/
def predictRoute (store : List Rec) (b : PredictBody) : Resp PredictPayload :=
  if truthyS b.type = false || truthyS b.category = false then .clientErr
  else
    let t := b.type.getD ""
    let c := b.category.getD ""
    let w := b.weeks_ahead.getD 1
    match predictPrice store t c w with
    | .error _ => .serverErr
    | .ok f =>
      .ok { predicted_price := f.predicted_price
            confidence := f.confidence
            data_points := f.data_points
            type := t, category := c, weeks_ahead := w }

end P1

/-! ## `P2` — the variant in `src/unnamed/part_002` -/

namespace P2

/-- `part_002`'s `getCurrentPrices` (lines 116–136): restrict to positive
prices first, then slice at the maximum date of that restricted set. -/
def getCurrentPrices (store : List Rec) : CurrentView :=
  if store.isEmpty then ⟨[], none⟩
  else
    let validData := store.filter (fun r => decide (0 < r.price))
    if validData.isEmpty then ⟨[], none⟩
    else
      let latestDate := maxDateTime validData
      ⟨validData.filter (fun r => decide (r.date = latestDate)), some latestDate⟩

end P2

/-! ## `P4` — the first document in `src/unnamed/part_004` -/

namespace P4

/-- A record as pushed by `part_004`'s loader (the `original_date` debug
field is omitted). -/
structure RawRec where
  date : RiceUp.Ymd
  type : String
  category : String
  price : ℚ
  unit : String
deriving DecidableEq

/-- The alias chain `data['Date'] || data['date'] || … || columns[i]`: first
truthy cell under a recognised name, else the *name* of the `i`-th column
(the source falls back to `Object.keys(data)[i]`, not to its value). -/
def aliasGet (row : RawRow) (names : List String) (idx : ℕ) : Option String :=
  match names.findSome? (fun k => truthyOpt (lookupRow row k)) with
  | some v => some v
  | none => (row.get? idx).map (fun p => p.1)

/-- The fabricated fallback date (lines 105–117): `new Date('2023-01-01')`
advanced by `Math.floor(rowCount / 10)` days. -/
def fabricatedDate (rowCount : ℕ) : RiceUp.Ymd :=
  ⟨2023, 0, 1 + (rowCount / 10 : ℕ)⟩

/-- Date handling of `part_004`'s loader (lines 82–118): a `YYYY/MM/DD`
split with `parseInt` components, else `new Date(date)` (ISO), and on any
failure the fabricated row-count date — the loader never fails a row for
its date. -/
def parseDateP4 (ds : String) (rowCount : ℕ) : RiceUp.Ymd :=
  match splitOnStr '/' ds with
  | [ys, ms, dds] =>
    match parseIntJS ys, parseIntJS ms, parseIntJS dds with
    | some y, some m, some d => ⟨y, m - 1, d⟩
    | _, _, _ => fabricatedDate rowCount
  | _ =>
    match P1.newDateFromString ds with
    | some ymd => ymd
    | none => fabricatedDate rowCount

/-- The merge-conflict sentinel check (line 62). -/
def mergeMarker (row : RawRow) : Bool :=
  ["<<<<<<< HEAD", "=======", ">>>>>>>"].any
    (fun k => (truthyOpt (lookupRow row k)).isSome)

/-- The `data` callback of `part_004`'s `loadRiceData` (lines 57–137): skip
empty and merge-conflict rows, resolve columns through the alias chains,
parse the date (never failing, see `parseDateP4`), strip and parse the
price, and push the record only when `type && category && !isNaN(cleanPrice)
&& cleanPrice > 0`. -/
def loadRiceDataRow (row : RawRow) (rowCount : ℕ) : Option RawRec :=
  if row.isEmpty then none
  else if mergeMarker row then none
  else
    match aliasGet row ["Date", "date", "DATE", "Petsa", "petsa"] 0 with
    | none => none
    | some ds =>
      let typeV := (aliasGet row ["Type", "type", "TYPE", "Uri", "uri"] 1).getD ""
      let catV :=
        (aliasGet row ["Category", "category", "CATEGORY", "Kategorya", "kategorya"] 2).getD ""
      let priceS :=
        match aliasGet row ["Price", "price", "PRICE", "Presyo", "presyo"] 3 with
        | none => "0"
        | some s => let t := stripNonNum s; if t = "" then "0" else t
      match jsParseFloat priceS with
      | none => none
      | some p =>
        if typeV ≠ "" ∧ catV ≠ "" ∧ 0 < p then
          some { date := parseDateP4 ds rowCount
                 type := trimStr typeV, category := trimStr catV
                 price := p, unit := "PHP/kg" }
        else none

/-- `part_004`'s `getCurrentPrices` (lines 170–184): all records dated at
the maximum date of the store, no price condition. -/
def getCurrentPrices (store : List Rec) : CurrentView :=
  if store.isEmpty then ⟨[], none⟩
  else
    let latestDate := maxDateTime store
    ⟨store.filter (fun r => decide (r.date = latestDate)), some latestDate⟩

/-- `part_004`'s `getHistoricalData` (lines 187–239), the returned record
list: optional type/category filters over all records, newest-first sort,
then either a `(page, page_size)` slice or a `limit` slice. -/
def getHistoricalData (store : List Rec) (f : P1.HFilters)
    (page pageSize : Option ℕ) : List Rec :=
  let d2 := P1.applyOptFilter (fun r => r.type) f.type store
  let d3 := P1.applyOptFilter (fun r => r.category) f.category d2
  let sorted := List.insertionSort dateDesc d3
  match page, pageSize with
  | some p, some s => (sorted.drop ((p - 1) * s)).take s
  | _, _ =>
    match f.limit with
    | some n => sorted.take n
    | none => sorted

/-- `part_004`'s `POST /api/predict` (lines 395–448): 400 on missing
type/category, 400 on a series of fewer than 2 valid points, otherwise an
inline index-based regression — identical to `P1.predictPrice`'s pipeline —
with `predicted_price = parseFloat(Math.max(0, raw).toFixed(2))` and
`confidence = parseFloat(r2.toFixed(4))`.  No validation of `weeks_ahead`
takes place. -/
def predictRoute (store : List Rec) (b : PredictBody) : Resp PredictPayload :=
  if truthyS b.type = false || truthyS b.category = false then .clientErr
  else
    let t := b.type.getD ""
    let c := b.category.getD ""
    let fd := seriesOf store t c
    if fd.length < 2 then .clientErr
    else
      let w := b.weeks_ahead.getD 1
      .ok { predicted_price := round2 (max 0 (P1.rawPrediction store t c w))
            confidence := jsRound4 (P1.fitOf store t c).r2
            data_points := fd.length
            type := t, category := c, weeks_ahead := w }

end P4

/-! ## `P4b` — the second document in `src/unnamed/part_004` -/

namespace P4b

/-- The matching records (no price condition) sorted ascending by date. -/
def seriesTC (store : List Rec) (t c : String) : List Rec :=
  List.insertionSort dateAsc (filterTC store t c)

/-- `(item.date - firstDate) / (1000*60*60*24)` pairs: days since the first
observation against price. -/
def dataPoints (l : List Rec) : List (ℚ × ℚ) :=
  match l.head? with
  | none => []
  | some f => l.map (fun r => (((r.date - f.date : ℤ) : ℚ), r.price))

/-- The day-offset regression of `part_004`'s second document. -/
def fitOf (store : List Rec) (t c : String) : LinFit :=
  regressionLinear (dataPoints (seriesTC store t c))

/-- The result object of `predictPrice` in `part_004`'s second document
(lines 745–752). -/
structure Forecast where
  predicted_price : ℚ
  prediction_date : ℤ
  confidence : JNum
  data_points : ℕ
  trend : String
  slope : ℚ
deriving DecidableEq

/-- `predictPrice` of `part_004`'s second document (lines 707–753): throws
(here `.error`) below 2 observations; confidence is
`Math.max(0, Math.min(1, r2))` (`NaN` propagates); the target date advances
`weeksAhead * 7` days past the last observation; the price is
`Math.max(0, parseFloat(raw.toFixed(2)))`; the trend is `'upward'` for any
positive slope, `'downward'` for any negative slope, `'stable'` only at
slope exactly `0`. -/
def predictPrice (store : List Rec) (riceType category : String)
    (weeksAhead : ℤ) : Except PredErr Forecast :=
  let fd := filterTC store riceType category
  if fd.length < 2 then .error .insufficientData
  else
    let sorted := seriesTC store riceType category
    let ft := fitOf store riceType category
    let firstDate := ((sorted.head?).map (fun r => r.date)).getD 0
    let lastDate := ((sorted.getLast?).map (fun r => r.date)).getD 0
    let predictionDate := lastDate + 7 * weeksAhead
    let raw := ft.slope * ((predictionDate - firstDate : ℤ) : ℚ) + ft.intercept
    .ok { predicted_price := max 0 (round2 raw)
          prediction_date := predictionDate
          confidence := jsMaxN 0 (jsMinN 1 ft.r2)
          data_points := fd.length
          trend := if 0 < ft.slope then "upward"
                   else if ft.slope < 0 then "downward" else "stable"
          slope := round6 ft.slope }

/-- `POST /predict` of `part_004`'s second document (lines 832–862): 400 on
missing type/category, `weeks_ahead` defaulting to `1`, and the
`predictPrice` throw surfacing as a 400. -/
def predictRoute (store : List Rec) (b : PredictBody) : Resp Forecast :=
  if truthyS b.type = false || truthyS b.category = false then .clientErr
  else
    match predictPrice store (b.type.getD "") (b.category.getD "")
        (b.weeks_ahead.getD 1) with
    | .error _ => .clientErr
    | .ok f => .ok f

end P4b

/-! ## Concrete inputs used in counterexamples and witnesses -/

/-- A two-point series with an extreme slope: prices `10` then `100` one
week apart. -/
def storeSteep : List Rec :=
  [⟨0, "T", "C", 10, "PHP/kg"⟩, ⟨7, "T", "C", 100, "PHP/kg"⟩]

/-- A two-point series with a gentle slope: prices `50` then `51`. -/
def storeMild : List Rec :=
  [⟨0, "T", "C", 50, "PHP/kg"⟩, ⟨1, "T", "C", 51, "PHP/kg"⟩]

/-- A two-point constant series: price `50` at both observations. -/
def storeConst : List Rec :=
  [⟨0, "T", "C", 50, "PHP/kg"⟩, ⟨7, "T", "C", 50, "PHP/kg"⟩]

/-- A store whose latest-dated record has price `0` while an older record
has a positive price. -/
def storeZeroLatest : List Rec :=
  [⟨1, "T", "C", 5, "PHP/kg"⟩, ⟨2, "T", "C", 0, "PHP/kg"⟩]

/-- A store with two distinct dates, used to exercise the current slice. -/
def storeTwoDates : List Rec :=
  [⟨1, "LOCAL", "Special", 61, "PHP/kg"⟩, ⟨5, "LOCAL", "Special", 62, "PHP/kg"⟩,
   ⟨1, "IMPORTED", "Premium", 57, "PHP/kg"⟩]

/-- Two same-type records sharing one date (a tie on the maximum date). -/
def storeTie : List Rec :=
  [⟨5, "LOCAL", "Special", 50, "PHP/kg"⟩, ⟨5, "LOCAL", "Premium", 55, "PHP/kg"⟩]

/-- A mixed-type store for the historical-slice witness. -/
def storeHist : List Rec :=
  [⟨1, "LOCAL", "Special", 50, "PHP/kg"⟩, ⟨9, "IMPORTED", "Special", 60, "PHP/kg"⟩,
   ⟨3, "LOCAL", "Special", 52, "PHP/kg"⟩]

/-- A single-record store (a series of exactly one valid observation). -/
def storeOne : List Rec := [⟨0, "T", "C", 50, "PHP/kg"⟩]

/-- A CSV row whose price cell is the string `"0"`. -/
def rowPriceZero : RawRow :=
  [("date", "2024-01-01"), ("type", "LOCAL"), ("category", "Special"), ("price", "0")]

/-- A CSV row with a well-formed positive price. -/
def rowPriceGood : RawRow :=
  [("date", "2024/01/01"), ("type", "LOCAL"), ("category", "Special"), ("price", "51.83")]

/-- The record `P4`'s loader produces from `rowPriceGood`. -/
def recGood : P4.RawRec :=
  ⟨⟨2024, 0, 1⟩, "LOCAL", "Special", 5183 / 100, "PHP/kg"⟩

/-- A CSV row whose date cell matches neither the slash format nor ISO. -/
def rowBadDate : RawRow :=
  [("date", "not-a-date"), ("type", "LOCAL"), ("category", "Special"), ("price", "50")]

/-! ## Helper lemmas -/

deriving instance DecidableEq for Except

theorem le_foldl_max_init (l : List Rec) (a : ℤ) :
    a ≤ l.foldl (fun m x => max m x.date) a := by
  induction l generalizing a with
  | nil => exact le_refl a
  | cons hd tl ih => exact le_trans (le_max_left a hd.date) (ih (max a hd.date))

theorem date_le_foldl_max {l : List Rec} {r : Rec} (a : ℤ) (h : r ∈ l) :
    r.date ≤ l.foldl (fun m x => max m x.date) a := by
  induction l generalizing a with
  | nil => cases h
  | cons hd tl ih =>
    rcases List.mem_cons.mp h with h1 | h1
    · subst h1
      exact le_trans (le_max_right a r.date) (le_foldl_max_init tl (max a r.date))
    · exact ih (max a hd.date) h1

theorem foldl_max_eq_or_mem (l : List Rec) (a : ℤ) :
    l.foldl (fun m x => max m x.date) a = a ∨
      l.foldl (fun m x => max m x.date) a ∈ l.map (fun r => r.date) := by
  induction l generalizing a with
  | nil => exact Or.inl rfl
  | cons hd tl ih =>
    rcases ih (max a hd.date) with h1 | h1
    · rcases max_choice a hd.date with h2 | h2
      · exact Or.inl (by rw [List.foldl_cons, h1, h2])
      · refine Or.inr (by rw [List.foldl_cons, h1, h2]; exact List.mem_map_of_mem _ (List.mem_cons_self hd tl))
    · exact Or.inr (List.mem_cons_of_mem _ h1)

theorem maxDateTime_mem {store : List Rec} (h : store ≠ []) :
    maxDateTime store ∈ store.map (fun r => r.date) := by
  match store with
  | [] => exact absurd rfl h
  | r :: rs =>
    have hm : maxDateTime (r :: rs) = rs.foldl (fun m x => max m x.date) r.date := rfl
    rw [hm]
    rcases foldl_max_eq_or_mem rs r.date with h1 | h1
    · rw [h1]
      exact List.mem_map_of_mem _ (List.mem_cons_self r rs)
    · exact List.mem_cons_of_mem _ h1

theorem date_le_maxDateTime {store : List Rec} {r : Rec} (h : r ∈ store) :
    r.date ≤ maxDateTime store := by
  match store with
  | [] => cases h
  | hd :: tl =>
    rcases List.mem_cons.mp h with h1 | h1
    · subst h1; exact le_foldl_max_init tl r.date
    · exact date_le_foldl_max hd.date h1

theorem mem_of_mem_applyOptFilter {sel : Rec → String} {o : Option String}
    {l : List Rec} {r : Rec} (h : r ∈ P1.applyOptFilter sel o l) : r ∈ l := by
  cases o with
  | none => exact h
  | some v =>
    rw [P1.applyOptFilter] at h
    split at h
    · exact (List.mem_filter.mp h).1
    · exact h

theorem sel_of_mem_applyOptFilter {sel : Rec → String} {v : String}
    {l : List Rec} {r : Rec} (hv : v ≠ "") (hall : v ≠ "all")
    (h : r ∈ P1.applyOptFilter sel (some v) l) : sel r = v := by
  rw [P1.applyOptFilter, if_pos ⟨hv, hall⟩] at h
  have := (List.mem_filter.mp h).2
  simpa using this

theorem jsclamp_some (q : ℚ) :
    jsMaxN 0 (jsMinN 1 (some q)) = some (max 0 (min 1 q)) := rfl

theorem jsclamp_none : jsMaxN 0 (jsMinN 1 none) = none := rfl

/- Batteries marks the arithmetic on `Rat` `@[irreducible]`; restore
definitional reducibility inside this file so that concrete programs
evaluate under `decide`. -/
attribute [local semireducible] Rat.add Rat.mul Rat.sub Rat.inv Rat.ofScientific

/-! ## Claims -/

/-- C1, counterexample.  On the series `storeSteep` (last observed price
`100`, fitted slope `90` per step) `part_001`'s `predictPrice` returns the
raw regression value `190`, which is strictly above `last_price * 1.5 =
150`: the claimed ±50 % clamp does not happen. -/
theorem c1_counterexample :
    P1.predictPrice storeSteep "T" "C" 1 =
      .ok { predicted_price := 190, confidence := some 1, data_points := 2,
            equation := (90, 10) } ∧
    ((List.insertionSort dateAsc (seriesOf storeSteep "T" "C")).getLast?).map
      (fun r => r.price) = some 100 ∧
    ¬ (190 : ℚ) ≤ (3 / 2) * 100 := by
  refine ⟨by decide, by decide, by norm_num⟩

/-- C1 (amended): the only bound applied to the raw regression value is the
clamp to non-negative, `Math.max(0, raw)`; in particular the result is never
below any value that is below the raw prediction, so a raw prediction more
than 50 % above the last observed price is returned as-is rather than
clamped to `last_price * 1.5`. -/
theorem c1_amended (store : List Rec) (t c : String) (w : ℤ)
    (f : P1.Forecast) (h : P1.predictPrice store t c w = .ok f) :
    f.predicted_price = max 0 (P1.rawPrediction store t c w) ∧
    0 ≤ f.predicted_price ∧
    ∀ b : ℚ, b < P1.rawPrediction store t c w → b < f.predicted_price := by
  simp only [P1.predictPrice] at h
  split at h
  · exact absurd h (by simp)
  · rw [Except.ok.injEq] at h
    subst h
    exact ⟨rfl, le_max_left 0 _, fun b hb => lt_of_lt_of_le hb (le_max_right 0 _)⟩

/-- C1, witness for the amended theorem, at the concrete series
`storeSteep`. -/
theorem c1_amended_witness :
    (150 : ℚ) <
      (P1.Forecast.mk 190 (some 1) 2 (90, 10)).predicted_price ∧
    (P1.Forecast.mk 190 (some 1) 2 (90, 10)).predicted_price =
      max 0 (P1.rawPrediction storeSteep "T" "C" 1) := by
  have h := c1_amended storeSteep "T" "C" 1 _ (by decide :
    P1.predictPrice storeSteep "T" "C" 1 =
      .ok (P1.Forecast.mk 190 (some 1) 2 (90, 10)))
  exact ⟨h.2.2 150 (by decide), h.1⟩

/-- C2, counterexample.  `part_001`'s loader keeps a row whose price cell is
`"0"`: the record enters the store with `price = 0`, so not every record in
the loaded store satisfies `price > 0`. -/
theorem c2_counterexample :
    P1.loadRiceData [rowPriceZero] =
      [{ date := some ⟨2024, 0, 1⟩, type := some "LOCAL",
         category := some "Special", price := 0, unit := "PHP/kg" }] ∧
    ((P1.loadRiceData [rowPriceZero]).all (fun r => decide (0 < r.price))) = false := by
  exact ⟨by decide, by decide⟩

/-- C2 (amended): in `part_004`'s load pipeline the claim holds — a row is
stored only when its cleaned price parses and is strictly positive, so
every record in that loaded store satisfies `price > 0`; `part_001`'s
loader instead retains such rows with the price coerced to `0`
(see the counterexample), filtering non-positive prices only at query
time. -/
theorem c2_amended (row : RawRow) (n : ℕ) (rec : P4.RawRec)
    (h : P4.loadRiceDataRow row n = some rec) : 0 < rec.price := by
  unfold P4.loadRiceDataRow at h
  split at h
  · exact absurd h (by simp)
  · split at h
    · exact absurd h (by simp)
    · split at h
      · exact absurd h (by simp)
      · simp only [] at h
        split at h
        · exact absurd h (by simp)
        · split at h
          · rw [Option.some.injEq] at h
            subst h
            rename_i hcond
            exact hcond.2.2
          · exact absurd h (by simp)

/-- C2, witness: the row with price `"51.83"` is accepted with price
`51.83 > 0`. -/
theorem c2_amended_witness :
    P4.loadRiceDataRow rowPriceGood 1 = some recGood ∧ 0 < recGood.price :=
  ⟨by decide, c2_amended rowPriceGood 1 recGood (by decide)⟩

/-- C3 (confirmed): when the requested `(type, category)` series has fewer
than 2 valid (positive-price) observations, `part_001`'s `predictPrice`
fails with its insufficient-data error and `part_004`'s `/api/predict`
route answers with a 400-class error; neither returns a forecast. -/
theorem c3_insufficient (store : List Rec) (t c : String) (w : ℤ)
    (ow : Option ℤ) (ht : t ≠ "") (hc : c ≠ "")
    (h : (seriesOf store t c).length < 2) :
    P1.predictPrice store t c w = .error .insufficientData ∧
    P4.predictRoute store ⟨some t, some c, ow⟩ = .clientErr := by
  constructor
  · unfold P1.predictPrice
    rw [if_pos h]
  · unfold P4.predictRoute
    simp only [truthyS, Option.getD_some]
    rw [if_neg (by simp [ht, hc]), if_pos h]

/-- C3, witness: a one-record series and an empty series both fail. -/
theorem c3_witness :
    (P1.predictPrice storeOne "T" "C" 4 = .error .insufficientData ∧
      P4.predictRoute storeOne ⟨some "T", some "C", some 4⟩ = .clientErr) ∧
    (P1.predictPrice ([] : List Rec) "T" "C" 4 = .error .insufficientData ∧
      P4.predictRoute ([] : List Rec) ⟨some "T", some "C", none⟩ = .clientErr) :=
  ⟨c3_insufficient storeOne "T" "C" 4 (some 4) (by decide) (by decide) (by decide),
   c3_insufficient [] "T" "C" 4 none (by decide) (by decide) (by decide)⟩

/-- C4, counterexample.  `weeks_ahead = 53` lies outside `[1, 52]`, yet
`part_004`'s `/api/predict` route answers with a successful prediction, not
a 400-class rejection: no horizon validation exists. -/
theorem c4_counterexample :
    P4.predictRoute storeMild ⟨some "T", some "C", some 53⟩ =
      .ok { predicted_price := 104, confidence := some 1, data_points := 2,
            type := "T", category := "C", weeks_ahead := 53 } ∧
    (P4.predictRoute storeMild ⟨some "T", some "C", some 53⟩).isOk = true ∧
    ¬ ((1 : ℤ) ≤ 53 ∧ (53 : ℤ) ≤ 52) := by
  refine ⟨by decide, by decide, by decide⟩

/-- C4 (amended): the predict routes validate only the presence of
`type`/`category` and the size of the series; `weeks_ahead` is defaulted to
`1` when absent and otherwise passed through unexamined, so every integer
horizon — also `0`, negative, or above `52` — yields a successful
prediction on a sufficient series. -/
theorem c4_amended (store : List Rec) (t c : String) (w : ℤ)
    (ht : t ≠ "") (hc : c ≠ "") (hlen : 2 ≤ (seriesOf store t c).length) :
    (P4.predictRoute store ⟨some t, some c, some w⟩).isOk = true ∧
    (P1.predictRoute store ⟨some t, some c, some w⟩).isOk = true := by
  constructor
  · unfold P4.predictRoute
    simp only [truthyS, Option.getD_some]
    rw [if_neg (by simp [ht, hc]), if_neg (Nat.not_lt.mpr hlen)]
    rfl
  · unfold P1.predictRoute P1.predictPrice
    simp only [truthyS, Option.getD_some]
    rw [if_neg (by simp [ht, hc]), if_neg (Nat.not_lt.mpr hlen)]
    rfl

/-- C4, witness: horizons `53` and `0` both produce predictions on the
series `storeMild`. -/
theorem c4_amended_witness :
    ((P4.predictRoute storeMild ⟨some "T", some "C", some 53⟩).isOk = true ∧
      (P1.predictRoute storeMild ⟨some "T", some "C", some 53⟩).isOk = true) ∧
    ((P4.predictRoute storeMild ⟨some "T", some "C", some 0⟩).isOk = true ∧
      (P1.predictRoute storeMild ⟨some "T", some "C", some 0⟩).isOk = true) :=
  ⟨c4_amended storeMild "T" "C" 53 (by decide) (by decide) (by decide),
   c4_amended storeMild "T" "C" 0 (by decide) (by decide) (by decide)⟩

/-- C5, counterexample.  In `part_002`'s `getCurrentPrices` the slice is
taken over positive-price records only: on `storeZeroLatest` (a price-`0`
record at the maximum date `2`, a positive one at date `1`) it returns the
date-`1` record with `as_of_date = 1`, not the records at the store's
maximum date `2`. -/
theorem c5_counterexample :
    P2.getCurrentPrices storeZeroLatest =
      ⟨[⟨1, "T", "C", 5, "PHP/kg"⟩], some 1⟩ ∧
    maxDateTime storeZeroLatest = 2 ∧
    (P2.getCurrentPrices storeZeroLatest).as_of_date ≠
      some (maxDateTime storeZeroLatest) ∧
    (⟨2, "T", "C", 0, "PHP/kg"⟩ : Rec) ∈ storeZeroLatest ∧
    (⟨2, "T", "C", 0, "PHP/kg"⟩ : Rec).date = maxDateTime storeZeroLatest ∧
    (⟨2, "T", "C", 0, "PHP/kg"⟩ : Rec) ∉
      (P2.getCurrentPrices storeZeroLatest).current_prices := by
  refine ⟨by decide, by decide,
    by decide, by decide,
    by decide, by decide⟩

/-- C5 (amended): `part_004`'s `getCurrentPrices` behaves exactly as the
claim states — on a non-empty store it returns precisely the records whose
date equals the maximum date present, with `asOfDate` that maximum, and on
an empty store an empty record list; `part_002`'s variant first discards
non-positive prices, so it equals the `part_004` slice of the
positive-price subset (and can miss the store's true maximum date, see the
counterexample). -/
theorem c5_amended :
    (∀ store : List Rec, store ≠ [] →
      maxDateTime store ∈ store.map (fun r => r.date) ∧
      (∀ r ∈ store, r.date ≤ maxDateTime store) ∧
      (∀ r : Rec, r ∈ (P4.getCurrentPrices store).current_prices ↔
        r ∈ store ∧ r.date = maxDateTime store) ∧
      (P4.getCurrentPrices store).as_of_date = some (maxDateTime store)) ∧
    P4.getCurrentPrices [] = ⟨[], none⟩ ∧
    (∀ store : List Rec, P2.getCurrentPrices store =
      P4.getCurrentPrices (store.filter (fun r => decide (0 < r.price)))) := by
  refine ⟨?_, rfl, ?_⟩
  · intro store hne
    refine ⟨maxDateTime_mem hne, fun r hr => date_le_maxDateTime hr, ?_, ?_⟩
    · intro r
      unfold P4.getCurrentPrices
      rw [if_neg (by simpa [List.isEmpty_iff] using hne)]
      simp [List.mem_filter]
    · unfold P4.getCurrentPrices
      rw [if_neg (by simpa [List.isEmpty_iff] using hne)]
  · intro store
    simp only [P2.getCurrentPrices, P4.getCurrentPrices]
    by_cases h1 : store.isEmpty = true
    · have h2 : (store.filter (fun r => decide (0 < r.price))).isEmpty = true := by
        rw [List.isEmpty_iff] at h1 ⊢
        rw [h1]
        rfl
      rw [if_pos h1, if_pos h2]
    · by_cases h2 : (store.filter (fun r => decide (0 < r.price))).isEmpty = true
      · rw [if_neg h1, if_pos h2]
      · rw [if_neg h1, if_neg h2]

/-- C5, witness for the amended theorem on the concrete two-date store. -/
theorem c5_amended_witness :
    (P4.getCurrentPrices storeTwoDates).as_of_date =
      some (maxDateTime storeTwoDates) ∧
    ((⟨5, "LOCAL", "Special", 62, "PHP/kg"⟩ : Rec) ∈
        (P4.getCurrentPrices storeTwoDates).current_prices ↔
      (⟨5, "LOCAL", "Special", 62, "PHP/kg"⟩ : Rec) ∈ storeTwoDates ∧
      (⟨5, "LOCAL", "Special", 62, "PHP/kg"⟩ : Rec).date = maxDateTime storeTwoDates) ∧
    P2.getCurrentPrices storeTwoDates =
      P4.getCurrentPrices (storeTwoDates.filter (fun r => decide (0 < r.price))) :=
  ⟨(c5_amended.1 storeTwoDates (by decide)).2.2.2,
   (c5_amended.1 storeTwoDates (by decide)).2.2.1 _,
   c5_amended.2.2 storeTwoDates⟩

/-- C6, counterexample.  On a constant two-point series the regression's
`SStot` is `0`, so `R²` is `NaN`; `Math.max(0, Math.min(1, NaN))` is `NaN`
again, and the returned confidence is `NaN` (`none`) — not the clamped
boundary value. -/
theorem c6_counterexample :
    P4b.predictPrice storeConst "T" "C" 1 =
      .ok { predicted_price := 50, prediction_date := 14, confidence := none,
            data_points := 2, trend := "stable", slope := 0 } ∧
    (P4b.predictPrice storeConst "T" "C" 1).toOption.map (fun f => f.confidence) =
      some none := by
  exact ⟨by decide, by decide⟩

/-- C6 (amended): in `part_004`'s second document the confidence is
`Math.max(0, Math.min(1, R²))`, which equals `R²` clamped into `[0, 1]`
whenever `R²` is defined, but propagates `NaN` (rather than a boundary
value) when `R²` is undefined; `part_001`'s forecaster returns `R²` with no
clamp at all. -/
theorem c6_amended (store : List Rec) (t c : String) (w : ℤ)
    (f : P4b.Forecast) (f1 : P1.Forecast)
    (h : P4b.predictPrice store t c w = .ok f)
    (h1 : P1.predictPrice store t c w = .ok f1) :
    (f.confidence = jsMaxN 0 (jsMinN 1 (P4b.fitOf store t c).r2) ∧
     (∀ q : ℚ, (P4b.fitOf store t c).r2 = some q →
        f.confidence = some (max 0 (min 1 q))) ∧
     ((P4b.fitOf store t c).r2 = none → f.confidence = none)) ∧
    f1.confidence = (P1.fitOf store t c).r2 := by
  simp only [P4b.predictPrice] at h
  split at h
  · exact absurd h (by simp)
  · rw [Except.ok.injEq] at h
    subst h
    simp only [P1.predictPrice] at h1
    split at h1
    · exact absurd h1 (by simp)
    · rw [Except.ok.injEq] at h1
      subst h1
      refine ⟨⟨rfl, ?_, ?_⟩, rfl⟩
      · intro q hq
        show jsMaxN 0 (jsMinN 1 (P4b.fitOf store t c).r2) = _
        rw [hq, jsclamp_some]
      · intro hq
        show jsMaxN 0 (jsMinN 1 (P4b.fitOf store t c).r2) = _
        rw [hq, jsclamp_none]

/-- C6, witness for the amended theorem on the series `storeMild`, where
`R²` is defined and equal to `1`. -/
theorem c6_amended_witness :
    (P4b.Forecast.mk 58 8 (some 1) 2 "upward" 1).confidence =
      some (max 0 (min 1 1)) ∧
    (P1.Forecast.mk 52 (some 1) 2 (1, 50)).confidence =
      (P1.fitOf storeMild "T" "C").r2 := by
  have h := c6_amended storeMild "T" "C" 1
    (P4b.Forecast.mk 58 8 (some 1) 2 "upward" 1)
    (P1.Forecast.mk 52 (some 1) 2 (1, 50))
    (by decide) (by decide)
  exact ⟨h.1.2.1 1 (by decide), h.2⟩

/-- Records surviving either historical filter pipeline have the filtered
type, and the sort is non-increasing in the date. -/
theorem hist_sublist_props {l out : List Rec} {t : String} {c : Option String}
    (ht : t ≠ "") (hall : t ≠ "all")
    (hsub : List.Sublist out (List.insertionSort dateDesc
      (P1.applyOptFilter (fun r => r.category) c
        (P1.applyOptFilter (fun r => r.type) (some t) l)))) :
    (∀ r ∈ out, r.type = t) ∧ List.Sorted dateDesc out := by
  constructor
  · intro r hr
    have h2 := hsub.subset hr
    rw [List.mem_insertionSort] at h2
    exact sel_of_mem_applyOptFilter ht hall (mem_of_mem_applyOptFilter h2)
  · exact List.Pairwise.sublist hsub (List.sorted_insertionSort dateDesc _)

/-- C7, counterexample.  A store with two same-type records on one date:
the returned list repeats the date `5`, so the output is non-increasing but
not *strictly* descending. -/
theorem c7_counterexample :
    P1.getHistoricalData storeTie ⟨some "LOCAL", none, none⟩ = storeTie ∧
    ¬ List.Sorted (fun a b : Rec => b.date < a.date)
        (P1.getHistoricalData storeTie ⟨some "LOCAL", none, none⟩) := by
  have h : P1.getHistoricalData storeTie ⟨some "LOCAL", none, none⟩ = storeTie := by
    decide
  refine ⟨h, ?_⟩
  rw [h]
  intro hs
  simp only [storeTie] at hs
  have h2 := List.rel_of_sorted_cons hs _ (List.mem_cons_self _ _)
  exact absurd h2 (lt_irrefl 5)

/-- C7 (amended): with a type filter, both historical views return only
records of that type, sorted non-increasingly (descending with ties
allowed, not strictly) by date. -/
theorem c7_amended (store : List Rec) (t : String) (c : Option String)
    (lim : Option ℕ) (page ps : Option ℕ) (ht : t ≠ "") (hall : t ≠ "all") :
    (∀ r ∈ P1.getHistoricalData store ⟨some t, c, lim⟩, r.type = t) ∧
    List.Sorted dateDesc (P1.getHistoricalData store ⟨some t, c, lim⟩) ∧
    (∀ r ∈ P4.getHistoricalData store ⟨some t, c, lim⟩ page ps, r.type = t) ∧
    List.Sorted dateDesc (P4.getHistoricalData store ⟨some t, c, lim⟩ page ps) := by
  have hsub1 : List.Sublist (P1.getHistoricalData store ⟨some t, c, lim⟩)
      (List.insertionSort dateDesc
        (P1.applyOptFilter (fun r => r.category) c
          (P1.applyOptFilter (fun r => r.type) (some t)
            (store.filter (fun r => decide (0 < r.price)))))) := by
    simp only [P1.getHistoricalData]
    cases lim with
    | some n => exact List.take_sublist n _
    | none => exact List.Sublist.refl _
  have h1 := hist_sublist_props ht hall hsub1
  have hsub4 : List.Sublist (P4.getHistoricalData store ⟨some t, c, lim⟩ page ps)
      (List.insertionSort dateDesc
        (P1.applyOptFilter (fun r => r.category) c
          (P1.applyOptFilter (fun r => r.type) (some t) store))) := by
    simp only [P4.getHistoricalData]
    cases page with
    | some p =>
      cases ps with
      | some s =>
        exact ((List.take_sublist s _).trans (List.drop_sublist _ _))
      | none =>
        cases lim with
        | some n => exact List.take_sublist n _
        | none => exact List.Sublist.refl _
    | none =>
      cases ps with
      | some s =>
        cases lim with
        | some n => exact List.take_sublist n _
        | none => exact List.Sublist.refl _
      | none =>
        cases lim with
        | some n => exact List.take_sublist n _
        | none => exact List.Sublist.refl _
  have h4 := hist_sublist_props ht hall hsub4
  exact ⟨h1.1, h1.2, h4.1, h4.2⟩

/-- C7, witness for the amended theorem on a concrete mixed store. -/
theorem c7_amended_witness :
    (∀ r ∈ P1.getHistoricalData storeHist ⟨some "LOCAL", none, none⟩,
      r.type = "LOCAL") ∧
    List.Sorted dateDesc (P1.getHistoricalData storeHist ⟨some "LOCAL", none, none⟩) ∧
    (∀ r ∈ P4.getHistoricalData storeHist ⟨some "LOCAL", none, none⟩
        (some 1) (some 20), r.type = "LOCAL") ∧
    List.Sorted dateDesc (P4.getHistoricalData storeHist ⟨some "LOCAL", none, none⟩
        (some 1) (some 20)) :=
  c7_amended storeHist "LOCAL" none none (some 1) (some 20)
    (by decide) (by decide)

/-- C8.  On a row whose date cell (`"not-a-date"`) matches neither the
`YYYY/MM/DD` slash format nor ISO `YYYY-MM-DD`, `part_004`'s loader does
not fail the row: at `rowCount = 15` it fabricates the date
`2023-01-01 + ⌊15/10⌋ days = 2023-01-02` and stores the record anyway. -/
theorem c8_fabricated_date :
    P4.loadRiceDataRow rowBadDate 15 =
      some { date := ⟨2023, 0, 2⟩, type := "LOCAL", category := "Special",
             price := 50, unit := "PHP/kg" } ∧
    (splitOnStr '/' "not-a-date").length ≠ 3 ∧
    P1.newDateFromString "not-a-date" = none ∧
    P4.fabricatedDate 15 = ⟨2023, 0, 2⟩ := by
  refine ⟨by decide, by decide,
    by decide, by decide⟩

/-- C10 (confirmed): a predict request body that omits `weeks_ahead`
entirely behaves exactly like one with `weeks_ahead = 1`, and on a valid
type/category with a sufficient series both predict routes answer with a
successful one-week-ahead forecast rather than rejecting the request. -/
theorem c10_default_weeks (store : List Rec) (t c : String)
    (ht : t ≠ "") (hc : c ≠ "")
    (h1 : 2 ≤ (seriesOf store t c).length)
    (h2 : 2 ≤ (filterTC store t c).length) :
    P1.predictRoute store ⟨some t, some c, none⟩ =
      P1.predictRoute store ⟨some t, some c, some 1⟩ ∧
    (P1.predictRoute store ⟨some t, some c, none⟩).isOk = true ∧
    P4b.predictRoute store ⟨some t, some c, none⟩ =
      P4b.predictRoute store ⟨some t, some c, some 1⟩ ∧
    (P4b.predictRoute store ⟨some t, some c, none⟩).isOk = true := by
  refine ⟨rfl, ?_, rfl, ?_⟩
  · unfold P1.predictRoute P1.predictPrice
    simp only [truthyS, Option.getD_some, Option.getD_none]
    rw [if_neg (by simp [ht, hc]), if_neg (Nat.not_lt.mpr h1)]
    rfl
  · unfold P4b.predictRoute P4b.predictPrice
    simp only [truthyS, Option.getD_some, Option.getD_none]
    rw [if_neg (by simp [ht, hc]), if_neg (Nat.not_lt.mpr h2)]
    rfl

/-- A two-point series with prices `1` and `1 + d` one day apart: its
fitted slope is exactly `d`, which can be made arbitrarily small and
nonzero. -/
def twoPointStore (d : ℚ) : List Rec :=
  [⟨0, "T", "C", 1, "PHP/kg"⟩, ⟨1, "T", "C", 1 + d, "PHP/kg"⟩]

/-- Ordinary least squares through the two points `(0, a)` and `(1, b)`
with `a < b`: slope `b - a`, intercept `a`, and a defined `R² = 1` (the fit
is exact and the prices are not constant). -/
theorem regressionLinear_pair (a b : ℚ) (hab : a < b) :
    regressionLinear [(0, a), (1, b)] = ⟨b - a, a, some 1⟩ := by
  simp only [regressionLinear, List.map_cons, List.map_nil, List.sum_cons,
    List.sum_nil, List.length_cons, List.length_nil]
  norm_num
  refine ⟨by ring, by ring, ?_, Or.inl (by ring)⟩
  intro h
  nlinarith [h, sq_nonneg (b - a), mul_pos (sub_pos.mpr hab) (sub_pos.mpr hab)]

/-- The day-offset fit of the two-point store has slope exactly `d`. -/
theorem fitOf_twoPoint (d : ℚ) (hd : 0 < d) :
    P4b.fitOf (twoPointStore d) "T" "C" = ⟨d, 1, some 1⟩ := by
  have h1 : P4b.dataPoints (P4b.seriesTC (twoPointStore d) "T" "C") =
      [(0, 1), (1, 1 + d)] := by rfl
  rw [P4b.fitOf, h1, regressionLinear_pair 1 (1 + d) (by linarith)]
  have h2 : (1 + d) - 1 = d := by ring
  rw [h2]

/-- For any positive fitted slope `d`, however tiny, `part_004`'s second
forecaster labels the trend `"upward"` and reports the slope rounded to six
decimals. -/
theorem predict_twoPoint (d : ℚ) (hd : 0 < d) :
    (P4b.predictPrice (twoPointStore d) "T" "C" 1).map (fun f => (f.trend, f.slope)) =
      .ok ("upward", round6 d) := by
  have hfd : filterTC (twoPointStore d) "T" "C" = twoPointStore d := by
    rfl
  simp only [P4b.predictPrice, hfd]
  rw [if_neg (by simp [twoPointStore] : ¬ (twoPointStore d).length < 2)]
  rw [fitOf_twoPoint d hd]
  simp only [Except.map]
  rw [Except.ok.injEq, Prod.mk.injEq]
  constructor
  · show (if (0:ℚ) < d then "upward" else if d < 0 then "downward" else "stable") = "upward"
    rw [if_pos hd]
  · rfl

theorem round6_nonneg {x : ℚ} (hx : 0 ≤ x) : 0 ≤ round6 x := by
  unfold round6
  have h : (0 : ℤ) ≤ round (x * 1000000) := by
    rw [round_eq]
    apply Int.floor_nonneg.mpr
    nlinarith
  have h2 : (0 : ℚ) ≤ ((round (x * 1000000) : ℤ) : ℚ) := by exact_mod_cast h
  exact div_nonneg h2 (by norm_num)

/-- Half of any positive `e`, rounded to six decimals, stays within `e` in
absolute value (for `e` below `10⁻⁶` the rounding collapses to `0`). -/
theorem abs_round6_half_le {e : ℚ} (he : 0 < e) : |round6 (e / 2)| ≤ e := by
  have h0 : 0 ≤ round6 (e / 2) := round6_nonneg (by linarith)
  rw [abs_of_nonneg h0]
  rcases le_or_lt (1 / 1000000) e with hc | hc
  · have h1 : ((round (e / 2 * 1000000) : ℤ) : ℚ) ≤ e / 2 * 1000000 + 1 / 2 := by
      have h2 := abs_sub_round (e / 2 * 1000000)
      rw [abs_le] at h2
      linarith [h2.1]
    unfold round6
    rw [div_le_iff₀ (by norm_num : (0:ℚ) < 1000000)]
    calc ((round (e / 2 * 1000000) : ℤ) : ℚ) ≤ e / 2 * 1000000 + 1 / 2 := h1
    _ ≤ e * 1000000 := by linarith
  · have h1 : round (e / 2 * 1000000) = 0 := by
      rw [round_eq, Int.floor_eq_zero_iff]
      constructor
      · linarith
      · show e / 2 * 1000000 + 1 / 2 < 1
        linarith
    unfold round6
    rw [h1]
    norm_num
    linarith

/-- C9, counterexample.  No positive dead-zone `e` exists: for any `e > 0`
the two-point series with fitted slope `e / 2` (whose fitted slope and
whose returned six-decimal slope both have magnitude at most `e`) is
labelled `"upward"`, not `"stable"`. -/
theorem c9_counterexample :
    ¬ ∃ e : ℚ, 0 < e ∧
      ∀ (store : List Rec) (t c : String) (w : ℤ) (f : P4b.Forecast),
        P4b.predictPrice store t c w = .ok f →
        |(P4b.fitOf store t c).slope| ≤ e → |f.slope| ≤ e →
        f.trend = "stable" := by
  rintro ⟨e, he, h⟩
  have hd : 0 < e / 2 := by linarith
  have hmap := predict_twoPoint (e / 2) hd
  cases hpp : P4b.predictPrice (twoPointStore (e / 2)) "T" "C" 1 with
  | error err => rw [hpp] at hmap; exact absurd hmap (by simp [Except.map])
  | ok f =>
    rw [hpp] at hmap
    simp only [Except.map] at hmap
    rw [Except.ok.injEq, Prod.mk.injEq] at hmap
    obtain ⟨htrend, hslope⟩ := hmap
    have hfit : |(P4b.fitOf (twoPointStore (e / 2)) "T" "C").slope| ≤ e := by
      rw [fitOf_twoPoint (e / 2) hd]
      show |e / 2| ≤ e
      rw [abs_of_pos hd]
      linarith
    have hsl : |f.slope| ≤ e := by
      rw [hslope]
      exact abs_round6_half_le he
    have hst := h _ "T" "C" 1 f hpp hfit hsl
    rw [htrend] at hst
    exact absurd hst (by decide)

/-- C9 (amended): the trend label has no dead-zone — it is `"upward"` for
every strictly positive fitted slope, `"downward"` for every strictly
negative one, and `"stable"` exactly when the fitted slope is `0`. -/
theorem c9_amended (store : List Rec) (t c : String) (w : ℤ) (f : P4b.Forecast)
    (h : P4b.predictPrice store t c w = .ok f) :
    f.trend = (if 0 < (P4b.fitOf store t c).slope then "upward"
               else if (P4b.fitOf store t c).slope < 0 then "downward"
               else "stable") ∧
    (f.trend = "stable" ↔ (P4b.fitOf store t c).slope = 0) ∧
    (0 < (P4b.fitOf store t c).slope → f.trend = "upward") ∧
    ((P4b.fitOf store t c).slope < 0 → f.trend = "downward") := by
  simp only [P4b.predictPrice] at h
  split at h
  · exact absurd h (by simp)
  · rw [Except.ok.injEq] at h
    subst h
    refine ⟨rfl, ?_, ?_, ?_⟩
    · show (if 0 < (P4b.fitOf store t c).slope then "upward"
            else if (P4b.fitOf store t c).slope < 0 then "downward"
            else "stable") = "stable" ↔ (P4b.fitOf store t c).slope = 0
      rcases lt_trichotomy (P4b.fitOf store t c).slope 0 with hs | hs | hs
      · rw [if_neg (by exact lt_asymm hs), if_pos hs]
        simp +decide [ne_of_lt hs]
      · rw [hs]
        norm_num
      · rw [if_pos hs]
        simp +decide [ne_of_gt hs]
    · intro h0
      show (if 0 < (P4b.fitOf store t c).slope then "upward"
            else if (P4b.fitOf store t c).slope < 0 then "downward"
            else "stable") = "upward"
      rw [if_pos h0]
    · intro hneg
      show (if 0 < (P4b.fitOf store t c).slope then "upward"
            else if (P4b.fitOf store t c).slope < 0 then "downward"
            else "stable") = "downward"
      rw [if_neg (lt_asymm hneg), if_pos hneg]

/-- C9, witness for the amended theorem on `storeMild` (fitted slope
`1 > 0`, trend `"upward"`). -/
theorem c9_amended_witness :
    (P4b.Forecast.mk 58 8 (some 1) 2 "upward" 1).trend = "upward" ∧
    0 < (P4b.fitOf storeMild "T" "C").slope :=
  ⟨(c9_amended storeMild "T" "C" 1
      (P4b.Forecast.mk 58 8 (some 1) 2 "upward" 1)
      (by decide)).2.2.1 (by decide),
   by decide⟩

/-- C10, witness on the series `storeMild` with `weeks_ahead` omitted. -/
theorem c10_default_weeks_witness :
    P1.predictRoute storeMild ⟨some "T", some "C", none⟩ =
      P1.predictRoute storeMild ⟨some "T", some "C", some 1⟩ ∧
    (P1.predictRoute storeMild ⟨some "T", some "C", none⟩).isOk = true ∧
    P4b.predictRoute storeMild ⟨some "T", some "C", none⟩ =
      P4b.predictRoute storeMild ⟨some "T", some "C", some 1⟩ ∧
    (P4b.predictRoute storeMild ⟨some "T", some "C", none⟩).isOk = true :=
  c10_default_weeks storeMild "T" "C" (by decide)
    (by decide) (by decide)
    (by decide)

end RiceUp
